import Mathlib

/-!
# Cloak SDK — shallow embedding and verification

A shallow embedding of the client-side privacy transaction engine of the
Cloak SDK (`@cloak-labs/sdk`), together with proofs and refutations of the
specified properties.  Bytes are modelled as `List Nat` with every byte in
`[0, 256)` maintained by explicit `% 256`; machine integers are `Nat`/`Int`
with explicit reductions.  External collaborators (the relayer HTTP API, the
Solana RPC connection, the Poseidon hasher, the AES-128 block cipher) are
modelled as explicit oracle parameters; everything the repository itself
computes is translated from the source.
-/

namespace Cloak

set_option maxRecDepth 8000

/-- The BN254 scalar-field prime, `FIELD_SIZE` in `constants.ts`. -/
def FIELD_SIZE : Nat :=
  21888242871839275222246405745257275088548364400416034343698204186575808495617

/-- `WITHDRAW_FEE_RATE = 0.3` (percent) from `constants.ts`, kept as the pair
(numerator 3, denominator 1000): `rate / 100 = 3 / 1000`. -/
def WITHDRAW_FEE_RATE_NUM : Nat := 3

def WITHDRAW_FEE_RATE_DEN : Nat := 1000

/-- Little-endian byte encoding of `v` in exactly `w` bytes
(`BN.toArrayLike(Buffer, "le", w)` / `buffer.writeUInt32LE`). -/
def leBytes : Nat → Nat → List Nat
  | 0, _ => []
  | w + 1, v => v % 256 :: leBytes w (v / 256)

/-- Big-endian integer reading of a byte list (`new BN(bytes)`,
whose default endianness is big-endian). -/
def beBytesToNat (bs : List Nat) : Nat :=
  bs.foldl (fun acc b => acc * 256 + b) 0

/-- The 32 bytes of the native-SOL sentinel `PublicKey("11111111111111111111111111111112")`:
base58 decodes to 31 zero bytes followed by `1`. -/
def solMintBytes : List Nat := List.replicate 31 0 ++ [1]

/-! ## SHA-256 (the digest used by the ext-data hash and the HMAC envelope)

A direct executable transcription of FIPS 180-4 over byte lists; words are
`Nat` reduced mod `2 ^ 32`. -/

/-- Right rotation of a 32-bit word. -/
def rotr32 (n x : Nat) : Nat :=
  ((x >>> n) ||| (x <<< (32 - n))) % 4294967296

/-- The 64 SHA-256 round constants, in decimal. -/
def sha256K : List Nat :=
  [1116352408, 1899447441, 3049323471, 3921009573, 961987163,
   1508970993, 2453635748, 2870763221, 3624381080, 310598401,
   607225278, 1426881987, 1925078388, 2162078206, 2614888103,
   3248222580, 3835390401, 4022224774, 264347078, 604807628,
   770255983, 1249150122, 1555081692, 1996064986, 2554220882,
   2821834349, 2952996808, 3210313671, 3336571891, 3584528711,
   113926993, 338241895, 666307205, 773529912, 1294757372,
   1396182291, 1695183700, 1986661051, 2177026350, 2456956037,
   2730485921, 2820302411, 3259730800, 3345764771, 3516065817,
   3600352804, 4094571909, 275423344, 430227734, 506948616,
   659060556, 883997877, 958139571, 1322822218, 1537002063,
   1747873779, 1955562222, 2024104815, 2227730452, 2361852424,
   2428436474, 2756734187, 3204031479, 3329325298]

/-- The SHA-256 initial hash value, in decimal. -/
def sha256Init : List Nat :=
  [1779033703, 3144134277, 1013904242, 2773480762,
   1359893119, 2600822924, 528734635, 1541459225]

/-- Group a padded byte stream into big-endian 32-bit words. -/
def bytesToWordsBE : List Nat → List Nat
  | b0 :: b1 :: b2 :: b3 :: rest =>
      (((b0 * 256 + b1) * 256 + b2) * 256 + b3) % 4294967296 :: bytesToWordsBE rest
  | _ => []

/-- Emit 32-bit words as big-endian bytes. -/
def wordsToBytesBE (ws : List Nat) : List Nat :=
  ws.flatMap fun w => [w / 16777216 % 256, w / 65536 % 256, w / 256 % 256, w % 256]

/-- SHA-256 padding: `0x80`, zero fill to 56 mod 64, then the 64-bit
big-endian bit length. -/
def sha256Pad (msg : List Nat) : List Nat :=
  let l := msg.length
  let zeros := (64 - (l + 9) % 64) % 64
  msg ++ 0x80 :: List.replicate zeros 0 ++
    ((leBytes 8 (l * 8)).reverse)

/-- Extend 16 message-schedule words up to the full 64. -/
def sha256Extend (ws : List Nat) : Nat → List Nat
  | 0 => ws
  | n + 1 =>
      let i := ws.length
      let w15 := ws.getD (i - 15) 0
      let w2 := ws.getD (i - 2) 0
      let s0 := (rotr32 7 w15) ^^^ (rotr32 18 w15) ^^^ (w15 >>> 3)
      let s1 := (rotr32 17 w2) ^^^ (rotr32 19 w2) ^^^ (w2 >>> 10)
      sha256Extend (ws ++ [(ws.getD (i - 16) 0 + s0 + ws.getD (i - 7) 0 + s1) % 4294967296]) n

/-- One round of the SHA-256 compression function. -/
def sha256Round (st : List Nat) (kw : Nat × Nat) : List Nat :=
  match st with
  | [a, b, c, d, e, f, g, h] =>
      let s1 := (rotr32 6 e) ^^^ (rotr32 11 e) ^^^ (rotr32 25 e)
      let ch := (e &&& f) ^^^ ((4294967295 - e) &&& g)
      let t1 := (h + s1 + ch + kw.1 + kw.2) % 4294967296
      let s0 := (rotr32 2 a) ^^^ (rotr32 13 a) ^^^ (rotr32 22 a)
      let mj := (a &&& b) ^^^ (a &&& c) ^^^ (b &&& c)
      let t2 := (s0 + mj) % 4294967296
      [(t1 + t2) % 4294967296, a, b, c, (d + t1) % 4294967296, e, f, g]
  | other => other

/-- Compress one 16-word block into the running state. -/
def sha256Compress (st : List Nat) (block : List Nat) : List Nat :=
  let ws := sha256Extend block 48
  let st' := (sha256K.zip ws).foldl sha256Round st
  (st.zip st').map fun p => (p.1 + p.2) % 4294967296

/-- Split the padded word stream into 16-word blocks and fold the
compression function over them. -/
def sha256Blocks (st : List Nat) : List Nat → List Nat
  | w0 :: w1 :: w2 :: w3 :: w4 :: w5 :: w6 :: w7 ::
    w8 :: w9 :: w10 :: w11 :: w12 :: w13 :: w14 :: w15 :: rest =>
      sha256Blocks
        (sha256Compress st
          [w0, w1, w2, w3, w4, w5, w6, w7, w8, w9, w10, w11, w12, w13, w14, w15])
        rest
  | _ => st

/-- SHA-256 of a byte list, as its 32 digest bytes. -/
def sha256 (msg : List Nat) : List Nat :=
  wordsToBytesBE (sha256Blocks sha256Init (bytesToWordsBE (sha256Pad msg)))

/-- HMAC-SHA-256 (`@noble/hashes` `hmac(sha256, key, msg)`), block size 64. -/
def hmacSha256 (key msg : List Nat) : List Nat :=
  let k0 := if 64 < key.length then sha256 key else key
  let kp := k0 ++ List.replicate (64 - k0.length) 0
  sha256 ((kp.map fun b => b ^^^ 92) ++ sha256 ((kp.map fun b => b ^^^ 54) ++ msg))

/-! ## The authenticated note envelope (`EncryptionService.encrypt` / `decrypt`)

AES-128-CTR is a stream cipher: the ciphertext is the plaintext XORed with a
keystream that is a pure function of the 16-byte AES key, the 16-byte IV and
the byte position.  The AES block computation lives in external libraries
(`node:crypto` / `@noble/ciphers`), so the keystream is an oracle parameter
`ks : List Nat → List Nat → Nat → Nat` (AES key, IV, position ↦ keystream
byte); encryption and decryption apply the *same* keystream, exactly as CTR
mode does.  Everything else — key slicing, the HMAC tag, the envelope layout
`IV ‖ tag ‖ ciphertext` — is transcribed from `encryption.ts`. -/

/-- XOR a byte stream against keystream bytes starting at position `i`
(CTR encryption and decryption are this same operation). -/
def ctrXor (ks : Nat → Nat) : Nat → List Nat → List Nat
  | _, [] => []
  | i, b :: bs => (b ^^^ (ks i % 256)) :: ctrXor ks (i + 1) bs

/-- `EncryptionService.encrypt`: AES key = bytes `[0,16)`, HMAC key = bytes
`[16,31)`, envelope `IV (16) ‖ authTag (16) ‖ ciphertext`, where
`authTag = HMAC-SHA-256(hmacKey, IV ‖ ciphertext)[0..16)`.  The random IV is
passed in explicitly. -/
def encryptEnvelope (ks : List Nat → List Nat → Nat → Nat)
    (key iv data : List Nat) : List Nat :=
  let aesKey := key.take 16
  let hmacKey := (key.drop 16).take 15
  let ct := ctrXor (ks aesKey iv) 0 data
  let tag := (hmacSha256 hmacKey (iv ++ ct)).take 16
  iv ++ tag ++ ct

/-- `EncryptionService.decrypt`: split the envelope, recompute the HMAC tag
with this key's bytes `[16,31)`, fail (`none`) on tag mismatch, otherwise
XOR the ciphertext against the keystream again. -/
def decryptEnvelope (ks : List Nat → List Nat → Nat → Nat)
    (key payload : List Nat) : Option (List Nat) :=
  let iv := payload.take 16
  let tag := (payload.drop 16).take 16
  let ct := payload.drop 32
  let hmacKey := (key.drop 16).take 15
  let expected := (hmacSha256 hmacKey (iv ++ ct)).take 16
  if tag = expected then some (ctrXor (ks (key.take 16) iv) 0 ct) else none

/-! ## The ext-data canonical hash (`getExtDataHash.ts`) -/

/-- The shapes in which `getExtDataHash` receives the mint: a `PublicKey`
(32 raw bytes), the native-SOL sentinel string, or a decimal numeric string
with value `n`.  (A non-SOL, non-numeric base58 string is re-parsed into a
`PublicKey` and so is covered by `pk`.) -/
inductive MintAddr where
  | pk (bytes : List Nat)
  | sol
  | numeric (n : Nat)
  deriving DecidableEq

/-- The 32-byte asset-tag field of the hash preimage, following the branch
structure of `getExtDataHash` lines 85–128.  Legacy (`useNumericMintFormat =
true`) converts a non-SOL `PublicKey` by reading its bytes as a big-endian
integer (`new BN(bytes)`) and re-emitting 32 little-endian bytes — with no
modular reduction — and emits a numeric string as its 32 little-endian
bytes; the new mode uses the raw 32 bytes.  `none` models the throw when a
numeric string reaches the new mode's `PublicKey` parser. -/
def mintAddressBytes : Bool → MintAddr → Option (List Nat)
  | true, .pk bytes =>
      if bytes = solMintBytes then some bytes
      else some (leBytes 32 (beBytesToNat bytes))
  | true, .sol => some solMintBytes
  | true, .numeric n => some (leBytes 32 n)
  | false, .pk bytes => some bytes
  | false, .sol => some solMintBytes
  | false, .numeric _ => none

/-- The `ExtData` record handed to `getExtDataHash`.  `none` for an
encrypted output models an absent field (Account Data Separation). -/
structure ExtData where
  recipient : List Nat
  extAmount : Int
  encryptedOutput1 : Option (List Nat)
  encryptedOutput2 : Option (List Nat)
  fee : Nat
  feeRecipient : List Nat
  mintAddress : MintAddr
  deriving DecidableEq

/-- An absent encrypted output becomes the empty byte string
(`extData.encryptedOutput1 ? Buffer.from(...) : new Uint8Array(0)`; note the
JS truthiness test also sends an empty *string* to the empty buffer). -/
def ctBytes : Option (List Nat) → List Nat
  | none => []
  | some l => l

/-- The 8 ext-amount bytes of the preimage.  The source tests the sign via
`extAmount.toNumber()`, which throws once the magnitude reaches `2^53`
(bn.js "Number can only safely store up to 53 bits"); that failure is
`none`.  A negative amount is mapped to `2^64 + extAmount` and written as 8
little-endian bytes. -/
def extAmountBytes (e : Int) : Option (List Nat) :=
  if e.natAbs < 9007199254740992 then
    if e < 0 then some (leBytes 8 (18446744073709551616 + e).toNat)
    else some (leBytes 8 e.toNat)
  else none

/-- The serialized preimage of the ext-data hash, in the writer order of
`getExtDataHash` lines 144–168: recipient ‖ extAmount ‖ len₁ ‖ ct₁ ‖ len₂ ‖
ct₂ ‖ fee ‖ feeRecipient ‖ assetTag. -/
def getExtDataHashPreimage (e : ExtData) (useNumericMintFormat : Bool) :
    Option (List Nat) := do
  let mint ← mintAddressBytes useNumericMintFormat e.mintAddress
  let ea ← extAmountBytes e.extAmount
  let c1 := ctBytes e.encryptedOutput1
  let c2 := ctBytes e.encryptedOutput2
  return e.recipient ++ ea ++ leBytes 4 c1.length ++ c1 ++
    leBytes 4 c2.length ++ c2 ++ leBytes 8 e.fee ++ e.feeRecipient ++ mint

/-- `getExtDataHash`: SHA-256 of the serialized preimage. -/
def getExtDataHash (e : ExtData) (useNumericMintFormat : Bool) : Option (List Nat) :=
  (getExtDataHashPreimage e useNumericMintFormat).map sha256

/-- `BN.toTwos(64).toArray("le", 8)`: the unsigned 64-bit two's-complement
image of a signed amount, little-endian. -/
def toTwosLe8 (e : Int) : List Nat :=
  leBytes 8 (e % 18446744073709551616).toNat

/-- `serializeProofAndExtData` (`encryption.ts` lines 345–389): the on-wire
proof+ext-data payload.  Proof components and public signals are opaque byte
strings here; the ext fields are serialized exactly as in the source. -/
def serializeProofAndExtData (discriminator proofA proofB proofC root
    publicAmount extDataHash n0 n1 c0 c1 : List Nat)
    (extAmount : Int) (fee : Nat) (ct1 ct2 : List Nat) : List Nat :=
  discriminator ++ proofA ++ proofB ++ proofC ++ root ++ publicAmount ++
    extDataHash ++ n0 ++ n1 ++ c0 ++ c1 ++ toTwosLe8 extAmount ++
    leBytes 8 fee ++ leBytes 4 ct1.length ++ ct1 ++ leBytes 4 ct2.length ++ ct2

/-! ## Withdrawal and deposit amount arithmetic

`withdraw` (`fetchWithRetry.ts`): the requested lamport amount first has the
fee *subtracted from it* (line 427 `amount_in_lamports -=
fee_amount_in_lamports`); the change output, ext amount and public amount
are then computed from the adjusted amount.  The fee itself is
`Math.floor(amount_in_lamports * (WITHDRAW_FEE_RATE / 100))`, a
floating-point computation; it enters the model as an explicit parameter. -/

structure WithdrawBuild where
  fee : Nat
  adjustedAmount : Nat
  change : Nat
  out1 : Nat
  extAmount : Int
  publicAmount : Int
  deriving DecidableEq

/-- The amounts side of a two-input withdrawal (`withdraw`, lines 421–427 and
697–829).  `requested` is `amount_in_sol * LAMPORTS_PER_SOL`; `sumInputs` is
`firstInput.amount + secondInput.amount`.  `none` models the
`INSUFFICIENT_BALANCE` throws at lines 701 and 710. -/
def buildWithdraw (requested fee sumInputs : Nat) : Option WithdrawBuild :=
  let adjusted := requested - fee
  if sumInputs = 0 then none
  else if sumInputs < adjusted + fee then none
  else some {
    fee := fee
    adjustedAmount := adjusted
    change := sumInputs - adjusted - fee
    out1 := 0
    extAmount := -(adjusted : Int)
    publicAmount := (-(adjusted : Int) - (fee : Int) + (FIELD_SIZE : Int)) %
      (FIELD_SIZE : Int) }

/-- The witness fields the balance equation speaks about. -/
structure TxWitness where
  inAmounts : List Nat
  outAmounts : List Nat
  publicAmount : Int

/-- `(Σ inAmount + publicAmount) mod FIELD_SIZE = Σ outAmount`. -/
def balanceEq (w : TxWitness) : Prop :=
  ((w.inAmounts.sum : Int) + w.publicAmount) % (FIELD_SIZE : Int) =
    (w.outAmounts.sum : Int)

/-- Witness of a fresh deposit (`depositSpl`, lines 741–767 and 838–859):
two dummy zero inputs, `outputAmount = amount - fee_amount`, and
`publicAmount = (extAmount - fee + FIELD_SIZE) mod FIELD_SIZE` with
`extAmount = amount`. -/
def depositFreshWitness (amount fee : Nat) : TxWitness :=
  { inAmounts := [0, 0]
    outAmounts := [amount - fee, 0]
    publicAmount := ((amount : Int) - (fee : Int) + (FIELD_SIZE : Int)) %
      (FIELD_SIZE : Int) }

/-- Witness of a consolidating deposit (`depositSpl`, lines 768–859):
inputs are the first one or two unspent notes, `outputAmount = in0 + in1 +
amount - fee_amount`. -/
def depositConsolidateWitness (amount fee in0 in1 : Nat) : TxWitness :=
  { inAmounts := [in0, in1]
    outAmounts := [in0 + in1 + amount - fee, 0]
    publicAmount := ((amount : Int) - (fee : Int) + (FIELD_SIZE : Int)) %
      (FIELD_SIZE : Int) }

/-- Witness of a withdrawal (`withdraw`, lines 769–848): outputs are the
change note and a dummy zero note. -/
def withdrawWitness (b : WithdrawBuild) (in0 in1 : Nat) : TxWitness :=
  { inAmounts := [in0, in1]
    outAmounts := [b.change, b.out1]
    publicAmount := b.publicAmount }

/-! ## The note scanner (`getMyUtxos.ts`, `decryptCachedOutputs`)

Decryption, the Poseidon commitment and the nullifier live behind oracles:
`commit` is index-independent (`getCommitment` hashes amount, pubkey,
blinding, mint only) and is applied to the decrypted amount/blinding pair;
`nullif` hashes the full note including its index.  The relayer and the
chain are a `ScanEnv`. -/

structure Note where
  amount : Nat
  blinding : Nat
  index : Nat
  deriving DecidableEq

structure ScanEnv where
  /-- whether `GET /merkle/proof/{commitment}` comes back `ok` (after the
  HTTP retries) -/
  proofOk : Nat → Bool
  /-- the `index` the inclusion-proof service holds for a commitment -/
  proofIndex : Nat → Nat
  /-- existence of the `"nullifier0"`-seeded marker account for a nullifier -/
  marker0 : Nat → Bool
  /-- existence of the `"nullifier1"`-seeded marker account for a nullifier -/
  marker1 : Nat → Bool
  /-- whether the batched `getMultipleAccountsInfo` round trips succeed -/
  lookupOk : Bool

/-- `getCommitment` of a note: Poseidon over amount, pubkey, blinding, mint —
independent of the tree index. -/
def commitment (commit : Nat → Nat → Nat) (n : Note) : Nat :=
  commit n.amount n.blinding

/-- The index-correction step (`decryptCachedOutputs` lines 162–179): fetch
the inclusion proof by commitment and overwrite `index`; on any failure,
silently keep the original index. -/
def updateIndexFromProof (env : ScanEnv) (commit : Nat → Nat → Nat)
    (n : Note) : Note :=
  if env.proofOk (commitment commit n) then
    { n with index := env.proofIndex (commitment commit n) }
  else n

/-- The candidate filter (`decryptCachedOutputs` lines 110–146): keep
decrypted notes, drop zero amounts, drop duplicate ciphertexts (identified
by the ciphertext value, here an id). -/
def collectCandidates : List (Nat × Option Note) → List Nat → List Note
  | [], _ => []
  | (cid, r) :: rest, seen =>
    match r with
    | some n =>
      if n.amount = 0 then collectCandidates rest seen
      else if cid ∈ seen then collectCandidates rest seen
      else n :: collectCandidates rest (cid :: seen)
    | none => collectCandidates rest seen

/-- `batchCheckUtxosSpent`: a note is spent iff either marker account
exists.  When the account lookup fails, the `catch` handler itself raises —
its `error` identifier is shadowed by the caught exception object, so the
"assume all unspent" fallback is unreachable and the failure propagates
(`none`). -/
def batchCheckUtxosSpent (env : ScanEnv) (nullif : Note → Nat)
    (notes : List Note) : Option (List Bool) :=
  if notes.isEmpty then some []
  else if env.lookupOk then
    some (notes.map fun n => env.marker0 (nullif n) || env.marker1 (nullif n))
  else none

/-- `decryptCachedOutputs`: filter candidates, correct indices from
inclusion proofs, then drop the notes whose spent flag is set. -/
def decryptCachedOutputs (env : ScanEnv) (commit : Nat → Nat → Nat)
    (nullif : Note → Nat) (decrypted : List (Nat × Option Note)) :
    Option (List Note) :=
  let candidates := collectCandidates decrypted []
  if candidates.isEmpty then some []
  else do
    let updated := candidates.map (updateIndexFromProof env commit)
    let spent ← batchCheckUtxosSpent env nullif updated
    return ((updated.zip spent).filter fun p => !p.2).map Prod.fst

/-! ## The withdraw retry structure (`withdraw`, lines 901–944 and 1042–1138)

One attempt of the pipeline ends in one of four ways; the recursion is the
transition function below.  The pre-submission root re-query (lines
901–923) recurses with `retryCount` passed through *unchanged*; the `catch`
paths (lines 1055–1131) recurse with `retryCount + 1` while it is below
`maxRetries` and rethrow otherwise. -/

structure RetryState where
  retryCount : Nat
  deriving DecidableEq

inductive AttemptEvent where
  /-- the pre-submission `/merkle/root` re-query returns a different root -/
  | rootRace
  /-- the attempt throws and `parseTransactionError` flags `isRootMismatch` -/
  | errRootMismatch
  /-- the attempt throws a generic retriable error -/
  | errOther
  /-- the attempt submits successfully -/
  | ok
  deriving DecidableEq

inductive AttemptResult where
  | retry (s : RetryState)
  | done
  | failed
  deriving DecidableEq

def withdrawAttemptStep (maxRetries : Nat) (s : RetryState) :
    AttemptEvent → AttemptResult
  | .rootRace => .retry ⟨s.retryCount⟩
  | .errRootMismatch =>
      if s.retryCount < maxRetries then .retry ⟨s.retryCount + 1⟩ else .failed
  | .errOther =>
      if s.retryCount < maxRetries then .retry ⟨s.retryCount + 1⟩ else .failed
  | .ok => .done

/-- Run the pipeline over a sequence of attempt outcomes. -/
def runWithdrawAttempts (maxRetries : Nat) :
    RetryState → List AttemptEvent → AttemptResult
  | s, [] => .retry s
  | s, e :: es =>
    match withdrawAttemptStep maxRetries s e with
    | .retry s' => runWithdrawAttempts maxRetries s' es
    | r => r

/-! ## Blinding generation (`Utxo.randomBN`, two copies) -/

/-- `Utxo.randomBN` in `src/models/utxo.ts` (the SDK copy): 4 bytes of
`crypto.randomBytes` read as a big-endian `u32` draw `r`, then
`r % 900000000 + 100000000`. -/
def randomBNSdk (r : Nat) : Nat := r % 900000000 + 100000000

/-- `Utxo.randomBN` in the duplicated module: `Math.floor(Math.random() *
1000000000)`; the draw is modelled as an arbitrary value reduced into
`[0, 10^9)`, every such value being attainable. -/
def randomBNFrontend (d : Nat) : Nat := d % 1000000000

/-! ## Supporting lemmas -/

theorem leBytes_length (w v : Nat) : (leBytes w v).length = w := by
  induction w generalizing v with
  | zero => rfl
  | succ w ih => simp [leBytes, ih]

theorem sha256Round_length (st : List Nat) (kw : Nat × Nat) :
    (sha256Round st kw).length = st.length := by
  unfold sha256Round
  split <;> simp_all

theorem foldl_sha256Round_length (l : List (Nat × Nat)) (st : List Nat) :
    (l.foldl sha256Round st).length = st.length := by
  induction l generalizing st with
  | nil => rfl
  | cons a l ih => simp [List.foldl_cons, ih, sha256Round_length]

theorem sha256Compress_length (st block : List Nat) :
    (sha256Compress st block).length = st.length := by
  simp [sha256Compress, foldl_sha256Round_length]

theorem sha256Blocks_length (st ws : List Nat) :
    (sha256Blocks st ws).length = st.length := by
  induction st, ws using sha256Blocks.induct with
  | case1 st w0 w1 w2 w3 w4 w5 w6 w7 w8 w9 w10 w11 w12 w13 w14 w15 rest ih =>
      rw [sha256Blocks, ih, sha256Compress_length]
  | case2 st ws h =>
      rw [sha256Blocks.eq_def]
      split
      · exfalso
        apply h <;> rfl
      · rfl

theorem wordsToBytesBE_length (ws : List Nat) :
    (wordsToBytesBE ws).length = 4 * ws.length := by
  induction ws with
  | nil => rfl
  | cons w ws ih => simp [wordsToBytesBE] at ih ⊢; omega

/-- A SHA-256 digest is always 32 bytes. -/
theorem sha256_length (msg : List Nat) : (sha256 msg).length = 32 := by
  simp [sha256, wordsToBytesBE_length, sha256Blocks_length, sha256Init]

theorem hmacSha256_length (key msg : List Nat) : (hmacSha256 key msg).length = 32 :=
  sha256_length _

/-- CTR decryption undoes CTR encryption: XORing the same keystream twice. -/
theorem ctrXor_ctrXor (ks : Nat → Nat) (i : Nat) (data : List Nat) :
    ctrXor ks i (ctrXor ks i data) = data := by
  induction data generalizing i with
  | nil => rfl
  | cons b bs ih => simp [ctrXor, ih, Nat.xor_assoc]

/-- Slicing the envelope `IV ‖ tag ‖ ct` recovers its three parts. -/
theorem envelope_slices (iv tag ct : List Nat) (hiv : iv.length = 16)
    (htag : tag.length = 16) :
    (iv ++ tag ++ ct).take 16 = iv ∧
      ((iv ++ tag ++ ct).drop 16).take 16 = tag ∧
      (iv ++ tag ++ ct).drop 32 = ct := by
  refine ⟨?_, ?_, ?_⟩
  · rw [List.append_assoc, List.take_left' hiv]
  · rw [List.append_assoc, List.drop_left' hiv, List.take_left' htag]
  · have h : (iv ++ tag ++ ct).drop 32 = ((iv ++ tag ++ ct).drop 16).drop 16 := by
      rw [List.drop_drop]
    rw [h, List.append_assoc, List.drop_left' hiv, List.drop_left' htag]

/-- Decrypting an envelope with any key whose HMAC slice `[16,31)` matches
the encrypting key's passes the tag check and returns the twice-XORed
payload. -/
theorem decryptEnvelope_encryptEnvelope (ks : List Nat → List Nat → Nat → Nat)
    (key key' iv data : List Nat) (hiv : iv.length = 16)
    (hk : (key.drop 16).take 15 = (key'.drop 16).take 15) :
    decryptEnvelope ks key' (encryptEnvelope ks key iv data) =
      some (ctrXor (ks (key'.take 16) iv) 0 (ctrXor (ks (key.take 16) iv) 0 data)) := by
  simp only [encryptEnvelope, decryptEnvelope]
  have htag : ((hmacSha256 ((key.drop 16).take 15)
      (iv ++ ctrXor (ks (key.take 16) iv) 0 data)).take 16).length = 16 := by
    simp [List.length_take, hmacSha256_length]
  obtain ⟨h1, h2, h3⟩ := envelope_slices iv _ _ hiv htag
  rw [h1, h2, h3, ← hk, if_pos rfl]

/-- Decrypting with the encrypting key recovers the plaintext. -/
theorem decryptEnvelope_roundtrip (ks : List Nat → List Nat → Nat → Nat)
    (key iv data : List Nat) (hiv : iv.length = 16) :
    decryptEnvelope ks key (encryptEnvelope ks key iv data) = some data := by
  rw [decryptEnvelope_encryptEnvelope ks key key iv data hiv rfl, ctrXor_ctrXor]

/-- Zipping a list with its mapped flags, filtering on the flag and
projecting is filtering on the flag. -/
theorem zip_map_filter_fst (l : List Note) (f : Note → Bool) :
    (((l.zip (l.map f)).filter fun p => !p.2).map Prod.fst) =
      l.filter fun n => !(f n) := by
  induction l with
  | nil => rfl
  | cons a l ih => by_cases h : f a <;> simp [h, ih]

theorem field_emod_shift (x : Int) :
    (x + (FIELD_SIZE : Int)) % (FIELD_SIZE : Int) = x % (FIELD_SIZE : Int) := by
  have h := Int.add_mul_emod_self_left x (FIELD_SIZE : Int) 1
  rwa [mul_one] at h

theorem two_pow_65_lt_field : (36893488147419103232 : Int) < (FIELD_SIZE : Int) := by
  norm_num [FIELD_SIZE]

/-- When the extAmount magnitude is within bn.js's safe integer range, the
preimage writer does not fail. -/
theorem extAmountBytes_isSome (e : Int) (h : e.natAbs < 9007199254740992) :
    ∃ l, extAmountBytes e = some l := by
  simp only [extAmountBytes, if_pos h]
  split <;> exact ⟨_, rfl⟩

/-- What a successful two-input withdrawal build contains, field by field. -/
theorem buildWithdraw_spec (requested fee sumInputs : Nat) (b : WithdrawBuild)
    (hb : buildWithdraw requested fee sumInputs = some b) :
    b.fee = fee ∧ b.adjustedAmount = requested - fee ∧
    b.change = sumInputs - (requested - fee) - fee ∧ b.out1 = 0 ∧
    b.extAmount = -(((requested - fee : Nat)) : Int) ∧
    b.publicAmount = (-(((requested - fee : Nat)) : Int) - (fee : Int) +
      (FIELD_SIZE : Int)) % (FIELD_SIZE : Int) ∧
    sumInputs ≠ 0 ∧ (requested - fee) + fee ≤ sumInputs := by
  simp only [buildWithdraw] at hb
  split at hb
  · exact Option.noConfusion hb
  split at hb
  · exact Option.noConfusion hb
  · injection hb with hb
    subst hb
    refine ⟨rfl, rfl, rfl, rfl, rfl, rfl, by assumption, by omega⟩

/-- The index-only update does not change a note's commitment
(`getCommitment` does not read the index). -/
theorem commitment_updateIndexFromProof (env : ScanEnv)
    (commit : Nat → Nat → Nat) (m : Note) :
    commitment commit (updateIndexFromProof env commit m) = commitment commit m := by
  unfold updateIndexFromProof
  split <;> rfl

/-- Every note a successful scan returns is an index-corrected candidate
whose spent flag was down. -/
theorem decryptCachedOutputs_some (env : ScanEnv) (commit : Nat → Nat → Nat)
    (nullif : Note → Nat) (decrypted : List (Nat × Option Note)) (out : List Note)
    (hout : decryptCachedOutputs env commit nullif decrypted = some out) :
    ∀ n ∈ out,
      n ∈ (collectCandidates decrypted []).map (updateIndexFromProof env commit) ∧
      (env.marker0 (nullif n) || env.marker1 (nullif n)) = false := by
  simp only [decryptCachedOutputs, batchCheckUtxosSpent] at hout
  split at hout
  · injection hout with hout
    subst hout
    intro n hn
    exact absurd hn (List.not_mem_nil n)
  split at hout
  · -- the candidate list is nonempty but its image is empty: nothing returned
    injection hout with hout
    subst hout
    intro n hn
    rw [List.isEmpty_iff] at *
    simp_all
  split at hout
  · injection hout with hout
    subst hout
    intro n hn
    rw [zip_map_filter_fst] at hn
    have h := List.mem_filter.mp hn
    exact ⟨h.1, by simpa using h.2⟩
  · exact Option.noConfusion hout

/-! ## Claims -/

/-- C1, counterexample: at the spec's own scenario — withdrawal of
5,000,000 lamports against a single 10,000,000 note, fee 15,000 — the
built transaction has change 5,000,000 (not Σ − amount − fee = 4,985,000)
and ext amount −4,985,000 (not −5,000,000), because line 427 subtracts the
fee from the amount before anything else is computed. -/
theorem withdraw_claimed_change_cex :
    (buildWithdraw 5000000 15000 10000000).map WithdrawBuild.change ≠ some 4985000 ∧
    (buildWithdraw 5000000 15000 10000000).map WithdrawBuild.extAmount ≠
      some (-5000000) := by
  decide

/-- C1 (amended): for every withdrawal built from at least one spendable
note with requested amount `amount` and fee `fee = floor(amount × fee_rate)`
≤ amount, the constructed transaction has output 0 amount =
`Σ inputs − amount`, output 1 amount = 0, and `ext_amount = −(amount − fee)`
— the fee is deducted from the withdrawn amount, not from the change. -/
theorem withdraw_change_extAmount (requested fee sumInputs : Nat)
    (b : WithdrawBuild) (hf : fee ≤ requested)
    (hb : buildWithdraw requested fee sumInputs = some b) :
    b.change = sumInputs - requested ∧ b.out1 = 0 ∧
    b.extAmount = -((requested : Int) - (fee : Int)) ∧ b.fee = fee := by
  obtain ⟨hbf, -, hch, ho1, hext, -, -, hge⟩ :=
    buildWithdraw_spec requested fee sumInputs b hb
  refine ⟨by omega, ho1, ?_, hbf⟩
  rw [hext]
  omega

/-- C1 witness: the amended statement evaluated at the spec's scenario 3. -/
theorem withdraw_change_extAmount_witness :
    (15000 : Nat) ≤ 5000000 ∧
    ((⟨15000, 4985000, 5000000, 0, -4985000,
        21888242871839275222246405745257275088548364400416034343698204186575803495617⟩ :
        WithdrawBuild).change = 10000000 - 5000000 ∧
      (⟨15000, 4985000, 5000000, 0, -4985000,
        21888242871839275222246405745257275088548364400416034343698204186575803495617⟩ :
        WithdrawBuild).out1 = 0 ∧
      (⟨15000, 4985000, 5000000, 0, -4985000,
        21888242871839275222246405745257275088548364400416034343698204186575803495617⟩ :
        WithdrawBuild).extAmount = -((5000000 : Int) - (15000 : Int)) ∧
      (⟨15000, 4985000, 5000000, 0, -4985000,
        21888242871839275222246405745257275088548364400416034343698204186575803495617⟩ :
        WithdrawBuild).fee = 15000) :=
  ⟨by decide, withdraw_change_extAmount 5000000 15000 10000000 _ (by decide) (by decide)⟩

/-- C2: for every transaction the engine builds — fresh deposit,
consolidating deposit, or withdrawal — the witness satisfies
`(Σ inAmount + publicAmount) mod FIELD_SIZE = Σ outAmount`, and the
withdrawal's public amount equals `(ext_amount − fee) mod FIELD_SIZE`
reduced into `[0, FIELD_SIZE)`. -/
theorem engine_balance_equation (amount fee in0 in1 requested wfee : Nat)
    (b : WithdrawBuild) (hfee : fee ≤ amount)
    (hamt : amount < 18446744073709551616)
    (hin0 : in0 < 18446744073709551616) (hin1 : in1 < 18446744073709551616)
    (hwfee : wfee ≤ requested) (hreq0 : 0 < requested)
    (hb : buildWithdraw requested wfee (in0 + in1) = some b) :
    balanceEq (depositFreshWitness amount fee) ∧
    balanceEq (depositConsolidateWitness amount fee in0 in1) ∧
    balanceEq (withdrawWitness b in0 in1) ∧
    b.publicAmount = (b.extAmount - (wfee : Int)) % (FIELD_SIZE : Int) := by
  have hF : ((FIELD_SIZE : Nat) : Int) =
      (21888242871839275222246405745257275088548364400416034343698204186575808495617 : Int) := by
    norm_num [FIELD_SIZE]
  obtain ⟨-, -, hch, ho1, hext, hpub, -, hge⟩ :=
    buildWithdraw_spec requested wfee (in0 + in1) b hb
  refine ⟨?_, ?_, ?_, ?_⟩
  · unfold balanceEq depositFreshWitness
    simp only [List.sum_cons, List.sum_nil]
    rw [hF]
    omega
  · unfold balanceEq depositConsolidateWitness
    simp only [List.sum_cons, List.sum_nil]
    rw [hF]
    omega
  · unfold balanceEq withdrawWitness
    simp only [List.sum_cons, List.sum_nil]
    rw [hch, ho1, hpub, hF]
    omega
  · rw [hpub, hext, hF]
    omega

/-- C2 witness: the balance equation evaluated at the spec's scenarios 1–3
(fresh deposit of 10,000,000 with fee 30,000; consolidating deposit over
notes 20,000,000 and 5,000,000; withdrawal of 5,000,000 from those notes
with fee 15,000). -/
theorem engine_balance_equation_witness :
    (30000 : Nat) ≤ 10000000 ∧
    (balanceEq (depositFreshWitness 10000000 30000) ∧
      balanceEq (depositConsolidateWitness 10000000 30000 20000000 5000000) ∧
      balanceEq (withdrawWitness ⟨15000, 4985000, 20000000, 0, -4985000,
        21888242871839275222246405745257275088548364400416034343698204186575803495617⟩
        20000000 5000000) ∧
      (⟨15000, 4985000, 20000000, 0, -4985000,
        21888242871839275222246405745257275088548364400416034343698204186575803495617⟩ :
        WithdrawBuild).publicAmount =
        ((⟨15000, 4985000, 20000000, 0, -4985000,
          21888242871839275222246405745257275088548364400416034343698204186575803495617⟩ :
          WithdrawBuild).extAmount - ((15000 : Nat) : Int)) % (FIELD_SIZE : Int)) :=
  ⟨by decide,
    engine_balance_equation 10000000 30000 20000000 5000000 5000000 15000 _
      (by decide) (by decide) (by decide) (by decide) (by decide) (by decide)
      (by decide)⟩

/-- C3, counterexample: the inclusion-proof service holds index 7 for the
note's commitment, but the proof fetch does not come back `ok`; the
scanner silently keeps the decrypted index 5 and still returns the note, so
a returned note's index can differ from the service's index. -/
theorem scanner_index_cex :
    decryptCachedOutputs
      ⟨fun _ => false, fun _ => 7, fun _ => false, fun _ => false, true⟩
      (fun a b => a + b) (fun n => n.amount + n.index)
      [(0, some ⟨10, 3, 5⟩)] = some [⟨10, 3, 5⟩] ∧
    (⟨fun _ => false, fun _ => 7, fun _ => false, fun _ => false, true⟩ :
      ScanEnv).proofIndex
        (commitment (fun a b => a + b) ⟨10, 3, 5⟩) = 7 ∧
    (⟨10, 3, 5⟩ : Note).index ≠ 7 := by
  decide

/-- C3 (amended): after a scan completes, every returned note whose
inclusion-proof fetch succeeded has its index equal to the index reported
by the service for that note's commitment; when the fetch fails (after the
HTTP retries), the note is still returned with its decrypted index
unchanged. -/
theorem scanner_index_of_proofOk (env : ScanEnv) (commit : Nat → Nat → Nat)
    (nullif : Note → Nat) (decrypted : List (Nat × Option Note))
    (out : List Note)
    (hout : decryptCachedOutputs env commit nullif decrypted = some out)
    (n : Note) (hn : n ∈ out)
    (hok : env.proofOk (commitment commit n) = true) :
    n.index = env.proofIndex (commitment commit n) := by
  have h :=
    (decryptCachedOutputs_some env commit nullif decrypted out hout n hn).1
  obtain ⟨m, hm, rfl⟩ := List.mem_map.mp h
  rw [commitment_updateIndexFromProof] at hok ⊢
  unfold updateIndexFromProof
  rw [if_pos hok]

/-- C3 witness: with a responsive proof service reporting index 9, the
returned note carries index 9. -/
theorem scanner_index_of_proofOk_witness :
    decryptCachedOutputs
      ⟨fun _ => true, fun _ => 9, fun _ => false, fun _ => false, true⟩
      (fun a b => a + b) (fun n => n.amount + n.index)
      [(0, some ⟨10, 3, 5⟩)] = some [⟨10, 3, 9⟩] ∧
    (⟨10, 3, 9⟩ : Note).index =
      (⟨fun _ => true, fun _ => 9, fun _ => false, fun _ => false, true⟩ :
        ScanEnv).proofIndex (commitment (fun a b => a + b) ⟨10, 3, 9⟩) :=
  ⟨by decide,
    scanner_index_of_proofOk
      ⟨fun _ => true, fun _ => 9, fun _ => false, fun _ => false, true⟩
      (fun a b => a + b) (fun n => n.amount + n.index)
      [(0, some ⟨10, 3, 5⟩)] [⟨10, 3, 9⟩] (by decide) ⟨10, 3, 9⟩ (by decide)
      (by decide)⟩

/-- C4: for every candidate note, if either of the two nullifier marker
accounts for the note's nullifier exists on chain, the scanner does not
include that note in the list it returns.  (When the batched account lookup
itself fails, the scan raises instead of returning a list — the `catch`
handler's shadowed logger call rethrows — so no list with a spent note is
ever produced.) -/
theorem scanner_spent_soundness (env : ScanEnv) (commit : Nat → Nat → Nat)
    (nullif : Note → Nat) (decrypted : List (Nat × Option Note))
    (out : List Note)
    (hout : decryptCachedOutputs env commit nullif decrypted = some out)
    (n : Note) (hn : n ∈ out) :
    env.marker0 (nullif n) = false ∧ env.marker1 (nullif n) = false := by
  have h :=
    (decryptCachedOutputs_some env commit nullif decrypted out hout n hn).2
  constructor
  · cases hm : env.marker0 (nullif n) <;> simp_all
  · cases hm : env.marker1 (nullif n) <;> simp_all

/-- C4 witness: a note whose two markers are down is returned with both
markers provably absent. -/
theorem scanner_spent_soundness_witness :
    decryptCachedOutputs
      ⟨fun _ => true, fun _ => 9, fun v => v == 99, fun _ => false, true⟩
      (fun a b => a + b) (fun n => n.amount)
      [(0, some ⟨10, 3, 5⟩)] = some [⟨10, 3, 9⟩] ∧
    ((⟨fun _ => true, fun _ => 9, fun v => v == 99, fun _ => false, true⟩ :
        ScanEnv).marker0 ((fun n : Note => n.amount) ⟨10, 3, 9⟩) = false ∧
      (⟨fun _ => true, fun _ => 9, fun v => v == 99, fun _ => false, true⟩ :
        ScanEnv).marker1 ((fun n : Note => n.amount) ⟨10, 3, 9⟩) = false) :=
  ⟨by decide,
    scanner_spent_soundness
      ⟨fun _ => true, fun _ => 9, fun v => v == 99, fun _ => false, true⟩
      (fun a b => a + b) (fun n => n.amount)
      [(0, some ⟨10, 3, 5⟩)] [⟨10, 3, 9⟩] (by decide) ⟨10, 3, 9⟩ (by decide)⟩

/-- C5, counterexample: two distinct 31-byte keys that agree on bytes
`[16,31)` — here the all-zero key and the key with first byte 1 — yield the
same HMAC subkey, so decrypting with the wrong key passes the
authentication-tag check instead of failing it (and, the AES halves of the
keys being equal too in this instance, even returns the original
plaintext). -/
theorem decrypt_wrong_key_auth_cex :
    (List.replicate 31 0 : List Nat) ≠ 1 :: List.replicate 30 0 ∧
    decryptEnvelope (fun _ _ _ => 0) (1 :: List.replicate 30 0)
      (encryptEnvelope (fun _ _ _ => 0) (List.replicate 31 0)
        (List.replicate 16 0) [1, 2, 3]) = some [1, 2, 3] := by
  decide

/-- C5 (amended): for every key `K`, 16-byte IV and plaintext `N`,
`decrypt(K, encrypt(K, N)) = N`; and for a second key `K'`, decryption
fails the authentication-tag check only when the HMAC subkeys (bytes
`[16,31)`) lead to different truncated tags — whenever `K` and `K'` agree
on bytes `[16,31)`, the tag check passes and decryption returns the
ciphertext XORed with `K'`'s keystream, even for `K ≠ K'`. -/
theorem encrypt_decrypt_roundtrip_and_tag
    (ks : List Nat → List Nat → Nat → Nat) (key key' iv data : List Nat)
    (hiv : iv.length = 16) :
    decryptEnvelope ks key (encryptEnvelope ks key iv data) = some data ∧
    ((key.drop 16).take 15 = (key'.drop 16).take 15 →
      decryptEnvelope ks key' (encryptEnvelope ks key iv data) =
        some (ctrXor (ks (key'.take 16) iv) 0
          (ctrXor (ks (key.take 16) iv) 0 data))) :=
  ⟨decryptEnvelope_roundtrip ks key iv data hiv,
   fun hk => decryptEnvelope_encryptEnvelope ks key key' iv data hiv hk⟩

/-- C5 witness: the amended statement evaluated at the all-zero key, a
second key differing in byte 0, the zero IV and plaintext `[1, 2, 3]`. -/
theorem encrypt_decrypt_roundtrip_and_tag_witness :
    decryptEnvelope (fun _ _ _ => 0) (List.replicate 31 0)
      (encryptEnvelope (fun _ _ _ => 0) (List.replicate 31 0)
        (List.replicate 16 0) [1, 2, 3]) = some [1, 2, 3] ∧
    decryptEnvelope (fun _ _ _ => 0) (1 :: List.replicate 30 0)
      (encryptEnvelope (fun _ _ _ => 0) (List.replicate 31 0)
        (List.replicate 16 0) [1, 2, 3]) =
      some (ctrXor ((fun _ _ _ => 0) ((1 :: List.replicate 30 0).take 16)
          (List.replicate 16 0)) 0
        (ctrXor ((fun _ _ _ => 0) ((List.replicate 31 0).take 16)
          (List.replicate 16 0)) 0 [1, 2, 3])) :=
  ⟨(encrypt_decrypt_roundtrip_and_tag (fun _ _ _ => 0) (List.replicate 31 0)
      (1 :: List.replicate 30 0) (List.replicate 16 0) [1, 2, 3] (by decide)).1,
   (encrypt_decrypt_roundtrip_and_tag (fun _ _ _ => 0) (List.replicate 31 0)
      (1 :: List.replicate 30 0) (List.replicate 16 0) [1, 2, 3] (by decide)).2
      (by decide)⟩

/-- C6, counterexample: in legacy mode, a mint supplied as a 32-byte
identifier (the all-`0xFF` mint, whose big-endian value exceeds FIELD_SIZE)
is re-encoded as the little-endian bytes of that value *without* modular
reduction, so the asset-tag field differs from the little-endian encoding
of the value reduced modulo FIELD_SIZE. -/
theorem legacy_mint_no_reduction_cex :
    mintAddressBytes true (.pk (List.replicate 32 255)) ≠
      some (leBytes 32 (beBytesToNat (List.replicate 32 255) % FIELD_SIZE)) ∧
    beBytesToNat (List.replicate 32 255) % FIELD_SIZE ≠
      beBytesToNat (List.replicate 32 255) := by
  decide

/-- C6 (amended): in the legacy numeric asset-tag mode, a non-native mint
supplied as its 32 raw bytes contributes, as the final 32 bytes of the hash
preimage, the little-endian re-encoding of the bytes read as a big-endian
integer, with no reduction modulo FIELD_SIZE; the reduction happens only in
callers that pre-reduce the mint into a decimal string (as `depositSpl`
does), in which case the field is the little-endian encoding of that
reduced value. -/
theorem legacy_mint_encoding (e : ExtData) (bytes : List Nat)
    (hm : e.mintAddress = .pk bytes) (hsol : bytes ≠ solMintBytes)
    (hea : e.extAmount.natAbs < 9007199254740992) :
    (∃ pre, getExtDataHashPreimage e true =
      some (pre ++ leBytes 32 (beBytesToNat bytes))) ∧
    (∀ n : Nat, mintAddressBytes true (.numeric n) = some (leBytes 32 n)) := by
  obtain ⟨ea, hEA⟩ := extAmountBytes_isSome e.extAmount hea
  refine ⟨⟨e.recipient ++ ea ++
    leBytes 4 (ctBytes e.encryptedOutput1).length ++ ctBytes e.encryptedOutput1 ++
    leBytes 4 (ctBytes e.encryptedOutput2).length ++ ctBytes e.encryptedOutput2 ++
    leBytes 8 e.fee ++ e.feeRecipient, ?_⟩, fun _ => rfl⟩
  simp only [getExtDataHashPreimage, hm, mintAddressBytes, if_neg hsol, hEA,
    Option.pure_def, Option.bind_eq_bind, Option.some_bind, List.append_assoc]

/-- C6 witness: the amended statement at a concrete non-native mint. -/
theorem legacy_mint_encoding_witness :
    (∃ pre,
      getExtDataHashPreimage ⟨[], 0, none, none, 0, [], .pk (List.replicate 32 7)⟩
        true = some (pre ++ leBytes 32 (beBytesToNat (List.replicate 32 7)))) ∧
    (∀ n : Nat, mintAddressBytes true (.numeric n) = some (leBytes 32 n)) :=
  legacy_mint_encoding ⟨[], 0, none, none, 0, [], .pk (List.replicate 32 7)⟩
    (List.replicate 32 7) rfl (by decide) (by decide)

/-- C7, counterexample: ten consecutive pre-submission root races leave the
pipeline still retrying with `retry_count` = 0 — the root-race restart does
not increment the counter and is not bounded by `max_retries` = 3. -/
theorem root_race_unbounded_cex :
    runWithdrawAttempts 3 ⟨0⟩ (List.replicate 10 .rootRace) = .retry ⟨0⟩ ∧
    withdrawAttemptStep 3 ⟨0⟩ .rootRace ≠ .retry ⟨1⟩ := by
  decide

/-- C7 (amended): when the root re-queried just before submission differs
from the root in the witness, the attempt restarts from input selection
with `retry_count` *unchanged*, so such restarts are not bounded by
`max_retries`; only a root-mismatch error reported after submission
restarts with `retry_count + 1`, and that path fails once `retry_count`
reaches `max_retries`. -/
theorem root_race_retry_count (maxRetries : Nat) (s : RetryState) :
    withdrawAttemptStep maxRetries s .rootRace = .retry ⟨s.retryCount⟩ ∧
    (s.retryCount < maxRetries →
      withdrawAttemptStep maxRetries s .errRootMismatch =
        .retry ⟨s.retryCount + 1⟩) ∧
    (maxRetries ≤ s.retryCount →
      withdrawAttemptStep maxRetries s .errRootMismatch = .failed) := by
  refine ⟨rfl, fun h => ?_, fun h => ?_⟩
  · simp [withdrawAttemptStep, h]
  · simp [withdrawAttemptStep, Nat.not_lt.mpr h]

/-- C7 witness: the amended statement at `max_retries` = 3 with counters 0
and 3. -/
theorem root_race_retry_count_witness :
    withdrawAttemptStep 3 ⟨0⟩ .rootRace = .retry ⟨0⟩ ∧
    withdrawAttemptStep 3 ⟨0⟩ .errRootMismatch = .retry ⟨1⟩ ∧
    withdrawAttemptStep 3 ⟨3⟩ .errRootMismatch = .failed :=
  ⟨(root_race_retry_count 3 ⟨0⟩).1,
   (root_race_retry_count 3 ⟨0⟩).2.1 (by decide),
   (root_race_retry_count 3 ⟨3⟩).2.2 (by decide)⟩

/-- C8, counterexample: at `x = 2^53` the hash-preimage writer does not
produce the two's-complement bytes at all — the sign test
`extAmount.toNumber()` throws once the magnitude reaches 2^53 — so the
spec's range `0 < x < 2^63` is too wide for the ext-data hash. -/
theorem extAmount_two_pow_53_cex :
    extAmountBytes (-(9007199254740992 : Int)) ≠
      some (leBytes 8 (18446744073709551616 - 9007199254740992)) ∧
    getExtDataHashPreimage
      ⟨[], -(9007199254740992 : Int), none, none, 0, [], .sol⟩ false = none := by
  decide

/-- C8 (amended): a negative `ext_amount = −x` serializes to the 8
little-endian bytes of `2^64 − x` in the ext-data hash preimage for
`0 < x < 2^53` (bn.js's safe-number bound), and in the on-wire
proof+ext-data payload for the full `0 < x < 2^63`. -/
theorem ext_amount_twos_complement (x : Nat) (hx0 : 0 < x)
    (hx : x < 9007199254740992) (y : Nat) (hy0 : 0 < y)
    (hy : y < 9223372036854775808) :
    extAmountBytes (-(x : Int)) = some (leBytes 8 (18446744073709551616 - x)) ∧
    toTwosLe8 (-(y : Int)) = leBytes 8 (18446744073709551616 - y) := by
  constructor
  · have h1 : (-(x : Int)).natAbs < 9007199254740992 := by
      simp only [Int.natAbs_neg, Int.natAbs_ofNat]
      omega
    have h2 : (-(x : Int)) < 0 := by omega
    rw [extAmountBytes, if_pos h1, if_pos h2]
    have h3 : ((18446744073709551616 : Int) + -(x : Int)).toNat =
        18446744073709551616 - x := by omega
    rw [h3]
  · rw [toTwosLe8]
    have h4 : ((-(y : Int)) % 18446744073709551616).toNat =
        18446744073709551616 - y := by omega
    rw [h4]

/-- C8 witness: the amended statement at `x = y = 5,000,000`. -/
theorem ext_amount_twos_complement_witness :
    extAmountBytes (-((5000000 : Nat) : Int)) =
      some (leBytes 8 (18446744073709551616 - 5000000)) ∧
    toTwosLe8 (-((5000000 : Nat) : Int)) =
      leBytes 8 (18446744073709551616 - 5000000) :=
  ext_amount_twos_complement 5000000 (by decide) (by decide) 5000000
    (by decide) (by decide)

/-- C9, counterexample: the duplicated `Utxo.randomBN` draws
`Math.floor(Math.random() * 10^9)`, whose attainable values include 0 — a
blinding below 10^8 with fewer than 9 digits, violating the claimed range
(and `Math.random()` is not a CSPRNG). -/
theorem frontend_blinding_range_cex :
    randomBNFrontend 0 = 0 ∧ ¬ (100000000 ≤ randomBNFrontend 0) := by
  decide

/-- C9 (amended): the SDK's `Utxo.randomBN` (`models/utxo.ts`) always lands
in `[10^8, 10^9 − 1]` — for every 32-bit draw — and draws its bytes from
`crypto.randomBytes`; the duplicated copy only guarantees `[0, 10^9 − 1]`
and uses `Math.random()`. -/
theorem blinding_range (r d : Nat) :
    100000000 ≤ randomBNSdk r ∧ randomBNSdk r ≤ 999999999 ∧
    randomBNFrontend d ≤ 999999999 := by
  unfold randomBNSdk randomBNFrontend
  omega

/-- C10: the ext-data hash cannot distinguish an absent encrypted output
from an empty one — both serialize as a 4-byte zero length followed by no
bytes, so the digests coincide for both ciphertext slots. -/
theorem ext_data_hash_absent_ciphertext (r : List Nat) (ea : Int)
    (c : Option (List Nat)) (f : Nat) (fr : List Nat) (m : MintAddr)
    (mode : Bool) :
    getExtDataHash ⟨r, ea, none, c, f, fr, m⟩ mode =
      getExtDataHash ⟨r, ea, some [], c, f, fr, m⟩ mode ∧
    getExtDataHash ⟨r, ea, c, none, f, fr, m⟩ mode =
      getExtDataHash ⟨r, ea, c, some [], f, fr, m⟩ mode :=
  ⟨rfl, rfl⟩

end Cloak
